import Mathlib

/-!
Verification development for the report-generation server (`src/server.js`).

The aggregation engine of the server is embedded shallowly:

* records are JSON-like values (`JSVal`), matching the data produced by the
  CSV parser (flat string rows, embedded as `CsvRow`) and the document store
  (nested documents, embedded as `JSVal.obj`);
* JavaScript value coercions used by the code (`String(x)`, truthiness,
  `Boolean(x)`) are modelled explicitly;
* the counts objects built with bracket assignment are modelled as
  insertion-ordered association lists, and `Object.entries` is modelled with
  the JS own-property enumeration order (canonical array-index keys first in
  ascending numeric order, then the remaining keys in insertion order);
* `Array.prototype.sort` with the comparator `(a, b) => b.percentage -
  a.percentage` is modelled as a stable descending insertion sort, which is
  the unique result mandated for stable sorts by that comparator;
* `Math.round((count / total) * 100)` is modelled as exact rational
  round-half-up, `(200 * count + total) / (2 * total)` in natural division.
-/

/-- Whitespace stripped by `String.prototype.trim`. -/
def isJsWhitespace (c : Char) : Bool :=
  c == ' ' || c == '\t' || c == '\n' || c == '\r' || c == '\x0b' || c == '\x0c'

/-- Model of `String.prototype.trim`: strip whitespace from both ends. -/
def jsTrim (s : String) : String :=
  String.mk (((s.data.dropWhile isJsWhitespace).reverse.dropWhile
    isJsWhitespace).reverse)

/-- Model of `String.prototype.toLowerCase` on this data. -/
def jsToLower (s : String) : String := String.mk (s.data.map Char.toLower)

/-- Accumulating base-10 value of a digit list. -/
def charsToNat : List Char → Nat → Nat
  | [], acc => acc
  | c :: cs, acc => charsToNat cs (acc * 10 + (c.toNat - 48))

/-- Numeric value of a non-empty all-digit string, else `none`. -/
def charsToNat? (l : List Char) : Option Nat :=
  if l ≠ [] ∧ l.all (fun c => c.isDigit) then some (charsToNat l 0) else none

/-- Splitter of `String.prototype.split(".")`, accumulating the current
segment in reverse. -/
def splitCharsOnDot : List Char → List Char → List String
  | [], acc => [String.mk acc.reverse]
  | c :: cs, acc =>
    if c = '.' then String.mk acc.reverse :: splitCharsOnDot cs []
    else splitCharsOnDot cs (c :: acc)

/-- Model of `path.split(".")`. -/
def splitOnDot (s : String) : List String := splitCharsOnDot s.data []

/-- JSON-like JavaScript values, as produced by the CSV parser and the
document store. Exotic properties (prototype methods, string indexing) are
outside the data model: records are plain data. -/
inductive JSVal where
  | undefined : JSVal
  | null : JSVal
  | bool : Bool → JSVal
  | num : Int → JSVal
  | str : String → JSVal
  | arr : List JSVal → JSVal
  | obj : List (String × JSVal) → JSVal

mutual

/-- Model of the JavaScript `String(v)` conversion on data values. -/
def jsToString : JSVal → String
  | .undefined => "undefined"
  | .null => "null"
  | .bool true => "true"
  | .bool false => "false"
  | .num n => toString n
  | .str s => s
  | .obj _ => "[object Object]"
  | .arr xs => arrJoin xs

/-- Model of `Array.prototype.toString`: elements joined by commas, with
`null` and `undefined` elements rendered as the empty string. -/
def arrJoin : List JSVal → String
  | [] => ""
  | [.undefined] => ""
  | [.null] => ""
  | [x] => jsToString x
  | .undefined :: y :: rest => "," ++ arrJoin (y :: rest)
  | .null :: y :: rest => "," ++ arrJoin (y :: rest)
  | x :: y :: rest => jsToString x ++ "," ++ arrJoin (y :: rest)

end

/-- JavaScript truthiness on data values. -/
def jsTruthy : JSVal → Bool
  | .undefined => false
  | .null => false
  | .bool b => b
  | .num n => n != 0
  | .str s => s != ""
  | .arr _ => true
  | .obj _ => true

/-- First-match lookup among the own properties of an object; `undefined` if absent. -/
def objLookup : List (String × JSVal) → String → JSVal
  | [], _ => .undefined
  | (k, v) :: rest, key => if k = key then v else objLookup rest key

/-- Whether a string is a canonical array-index property key
(a base-10 numeral without leading zeros, below 2^32 - 1). -/
def isArrayIndexKey (s : String) : Bool :=
  match charsToNat? s.data with
  | some n => decide (toString n = s) && decide (n < 4294967295)
  | none => false

/-- Property read `v[key]` on data values: own properties of objects, index
and `length` reads on arrays, `undefined` on everything else. -/
def jsGet : JSVal → String → JSVal
  | .obj fields, key => objLookup fields key
  | .arr xs, key =>
    if key = "length" then .num (Int.ofNat xs.length)
    else
      match charsToNat? key.data with
      | some n => if toString n = key then ((xs.get? n).getD .undefined) else .undefined
      | none => .undefined
  | _, _ => .undefined

/-- Loop body of `getNestedValue` (server.js:199-208): walk the split path
left to right, returning `undefined` as soon as the current value is
`null` or `undefined` while keys remain. -/
def walkPath : JSVal → List String → JSVal
  | current, [] => current
  | .undefined, _ :: _ => .undefined
  | .null, _ :: _ => .undefined
  | current, part :: rest => walkPath (jsGet current part) rest

/-- Embedding of `getNestedValue` (server.js:199-208): guard on a falsy
record or falsy path, then walk the dot-separated keys. -/
def getNestedValue (record : JSVal) (path : String) : JSVal :=
  if jsTruthy record = false then .undefined
  else if path = "" then .undefined
  else walkPath record (splitOnDot path)

/-- Normalization used by the distribution calculators:
`raw === undefined || raw === null ? "" : String(raw).trim()`. -/
def normalizeJS (raw : JSVal) : String :=
  match raw with
  | .undefined => ""
  | .null => ""
  | v => jsTrim (jsToString v)

/-- Model of `counts[k] = (counts[k] || 0) + 1` on an insertion-ordered
association list: bump an existing key in place, else append. -/
def bumpCount (m : List (String × Nat)) (k : String) : List (String × Nat) :=
  match m with
  | [] => [(k, 1)]
  | (k0, c0) :: rest => if k0 = k then (k0, c0 + 1) :: rest else (k0, c0) :: bumpCount rest k

/-- Model of `m[k] = v` on an insertion-ordered association list: overwrite
in place, else append. -/
def jsSet (m : List (String × Nat)) (k : String) (v : Nat) : List (String × Nat) :=
  match m with
  | [] => [(k, v)]
  | (k0, v0) :: rest => if k0 = k then (k0, v) :: rest else (k0, v0) :: jsSet rest k v

/-- Sum of the stored counts of an association list. -/
def sumVals (m : List (String × Nat)) : Nat := (m.map (fun p => p.2)).sum

/-- Stable ascending insertion by numeric key value, used to model the
array-index portion of the JS own-property enumeration order. -/
def insertByIndexKey (p : String × Nat) : List (String × Nat) → List (String × Nat)
  | [] => [p]
  | q :: rest =>
    if (charsToNat? q.1.data).getD 0 ≤ (charsToNat? p.1.data).getD 0 then q :: insertByIndexKey p rest
    else p :: q :: rest

/-- Stable insertion sort ascending by numeric key value. -/
def sortByIndexKey : List (String × Nat) → List (String × Nat)
  | [] => []
  | p :: rest => insertByIndexKey p (sortByIndexKey rest)

/-- Model of `Object.entries` on a counts object: canonical array-index keys
first in ascending numeric order, then the remaining keys in insertion
order. -/
def jsEntries (m : List (String × Nat)) : List (String × Nat) :=
  sortByIndexKey (m.filter (fun p => isArrayIndexKey p.1))
    ++ m.filter (fun p => !isArrayIndexKey p.1)

/-- One entry of a percentage distribution. -/
structure DistEntry where
  label : String
  count : Nat
  percentage : Nat
deriving Repr, DecidableEq

/-- Exact round-half-up of `100 * count / total`, the value
`Math.round((count / total) * 100)` computes on this data. -/
def roundPct (count total : Nat) : Nat := (200 * count + total) / (2 * total)

/-- Stable descending insertion of a distribution entry: skip entries with a
strictly larger percentage, so equal percentages keep their prior order. -/
def insertEntry (e : DistEntry) : List DistEntry → List DistEntry
  | [] => [e]
  | x :: xs => if e.percentage < x.percentage then x :: insertEntry e xs else e :: x :: xs

/-- Model of `.sort((a, b) => b.percentage - a.percentage)`: the stable
descending sort mandated by the ECMAScript specification for this
comparator. -/
def sortByPercentageDesc : List DistEntry → List DistEntry
  | [] => []
  | e :: rest => insertEntry e (sortByPercentageDesc rest)

/-- One mapped entry of a distribution: label, count, and rounded
percentage, zero when the total is zero (server.js:226-231). -/
def rankedEntry (total : Nat) (p : String × Nat) : DistEntry :=
  { label := p.1, count := p.2,
    percentage := if total > 0 then roundPct p.2 total else 0 }

/-- The entries of a counting pass in enumeration order, before sorting. -/
def rankedEntries (st : List (String × Nat) × Nat) : List DistEntry :=
  (jsEntries st.1).map (rankedEntry st.2)

/-- Shared tail of all three distribution calculators: map the enumerated
counts to entries with rounded percentages (zero when the total is zero) and
sort descending by percentage. -/
def distFromCounts (st : List (String × Nat) × Nat) : List DistEntry :=
  sortByPercentageDesc (rankedEntries st)

/-- Counting pass of `calculateDistribution` (server.js:212-233): resolve
and normalize the field of each row; a non-empty value bumps its label and
the running total. -/
def scalarPass (data : List JSVal) (field : String) : List (String × Nat) × Nat :=
  data.foldl (fun st row =>
    let value := normalizeJS (getNestedValue row field)
    if value ≠ "" then (bumpCount st.1 value, st.2 + 1) else st) ([], 0)

/-- Embedding of `calculateDistribution` (server.js:212-233). -/
def calculateDistribution (data : List JSVal) (field : String) : List DistEntry :=
  distFromCounts (scalarPass data field)

/-- Counting pass of `calculateDistributionFromArray` (server.js:236-267):
arrays contribute one count per non-empty normalized element, non-absent
scalars behave as in the scalar pass. -/
def arrayPass (data : List JSVal) (field : String) : List (String × Nat) × Nat :=
  data.foldl (fun st row =>
    match getNestedValue row field with
    | .arr items =>
      items.foldl (fun st item =>
        let value := normalizeJS item
        if value ≠ "" then (bumpCount st.1 value, st.2 + 1) else st) st
    | .undefined => st
    | .null => st
    | v =>
      let value := jsTrim (jsToString v)
      if value ≠ "" then (bumpCount st.1 value, st.2 + 1) else st) ([], 0)

/-- Embedding of `calculateDistributionFromArray` (server.js:236-267). -/
def calculateDistributionFromArray (data : List JSVal) (field : String) : List DistEntry :=
  distFromCounts (arrayPass data field)

/-- Initial counts object of `calculateBooleanDistribution`:
`{ [trueLabel]: 0, [falseLabel]: 0 }`. -/
def boolInit (trueLabel falseLabel : String) : List (String × Nat) :=
  jsSet (jsSet [] trueLabel 0) falseLabel 0

/-- One step of the boolean counting loop (server.js:274-281): a present
(non-null, non-undefined) value bumps the label selected by `Boolean(raw)`
and the total; absent values are skipped. -/
def boolStep (field trueLabel falseLabel : String)
    (st : List (String × Nat) × Nat) (row : JSVal) : List (String × Nat) × Nat :=
  match getNestedValue row field with
  | .undefined => st
  | .null => st
  | v => (bumpCount st.1 (if jsTruthy v then trueLabel else falseLabel), st.2 + 1)

/-- Counting pass of `calculateBooleanDistribution` (server.js:270-290). -/
def boolPass (data : List JSVal) (field : String) (trueLabel falseLabel : String) :
    List (String × Nat) × Nat :=
  data.foldl (boolStep field trueLabel falseLabel) (boolInit trueLabel falseLabel, 0)

/-- Embedding of `calculateBooleanDistribution` (server.js:270-290). -/
def calculateBooleanDistribution (data : List JSVal) (field : String)
    (trueLabel falseLabel : String) : List DistEntry :=
  distFromCounts (boolPass data field trueLabel falseLabel)

/-- Whether a resolved value is absent in the sense of the boolean
calculator: strictly `undefined` or `null`. -/
def isAbsent : JSVal → Bool
  | .undefined => true
  | .null => true
  | _ => false

/-- Whether a value can be traversed further by `getNestedValue` within the
data model (an object or an array). -/
def isTraversable : JSVal → Bool
  | .obj _ => true
  | .arr _ => true
  | _ => false

/-- A record of the CSV-backed growth branch: a flat row produced by the CSV
parser, mapping column names to string cell values. -/
abbrev CsvRow : Type := List (String × String)

/-- Property read `row[field]` on a CSV row: `none` models a missing column
(`undefined`). -/
def rowGet (row : CsvRow) (field : String) : Option String :=
  match row with
  | [] => none
  | (k, v) :: rest => if k = field then some v else rowGet rest field

/-- One expected-vs-achieved row of the Growth Comparator. -/
structure GrowthRow where
  category : String
  expected : Nat
  achieved : Nat
deriving Repr, DecidableEq

/-- Fixed category domain of `calculateGrowthData` (server.js:294). -/
def growthCategories : List String := ["None", "Little", "Moderate", "A lot"]

/-- Category counters of one side of the Growth Comparator. -/
structure GrowthCounts where
  cNone : Nat
  cLittle : Nat
  cModerate : Nat
  cALot : Nat
deriving Repr, DecidableEq

/-- Count stored for one category label; other labels have no counter. -/
def catCount (c : GrowthCounts) : String → Nat
  | "None" => c.cNone
  | "Little" => c.cLittle
  | "Moderate" => c.cModerate
  | "A lot" => c.cALot
  | _ => 0

/-- One step of the Growth Comparator counting loop:
`if (value && counts.hasOwnProperty(value)) counts[value]++`. A missing
column or empty cell is falsy; only the four own keys of the counts object
can be bumped. -/
def growthBump (c : GrowthCounts) (v : Option String) : GrowthCounts :=
  match v with
  | none => c
  | some s =>
    if s = "" then c
    else if s = "None" then { c with cNone := c.cNone + 1 }
    else if s = "Little" then { c with cLittle := c.cLittle + 1 }
    else if s = "Moderate" then { c with cModerate := c.cModerate + 1 }
    else if s = "A lot" then { c with cALot := c.cALot + 1 }
    else c

/-- Counting pass of one side of `calculateGrowthData` (server.js:298-310). -/
def growthCountsFor (data : List CsvRow) (field : String) : GrowthCounts :=
  data.foldl (fun c row => growthBump c (rowGet row field)) ⟨0, 0, 0, 0⟩

/-- Model of `n || 1`: the denominator substitution for an empty record
set (server.js:312-313). -/
def orOne (n : Nat) : Nat := if n = 0 then 1 else n

/-- Embedding of `calculateGrowthData` (server.js:293-320). -/
def calculateGrowthData (goalData exitData : List CsvRow)
    (expectedField achievedField : String) : List GrowthRow :=
  let expectedCounts := growthCountsFor goalData expectedField
  let achievedCounts := growthCountsFor exitData achievedField
  let totalExpected := orOne goalData.length
  let totalAchieved := orOne exitData.length
  growthCategories.map (fun cat =>
    { category := cat
      expected := roundPct (catCount expectedCounts cat) totalExpected
      achieved := roundPct (catCount achievedCounts cat) totalAchieved })

/-- Reference count used to specify the Growth Comparator: the number of
records whose raw field value is exactly the given category label. -/
def countExactMatches (data : List CsvRow) (field : String) (cat : String) : Nat :=
  (data.filter (fun row => rowGet row field == some cat)).length

/-- One likelihood/NPS-style score. -/
structure Score where
  category : String
  percentage : Nat
deriving Repr, DecidableEq

/-- Positional letter label `String.fromCharCode(65 + index)`. -/
def letterLabel (i : Nat) : String := String.mk [Char.ofNat (65 + i)]

/-- Whether a cell value is one of the affirmative answers, by strict string
equality; a missing column never matches. -/
def affirmMatch (affirm : List String) (v : Option String) : Bool :=
  match v with
  | some s => affirm.contains s
  | none => false

/-- Indexed loop of the score batteries (server.js:872-881 and 911-920):
one score per configured field, letter assigned from the running index. -/
def batteryFrom (data : List CsvRow) (affirm : List String) :
    Nat → List String → List Score
  | _, [] => []
  | idx, field :: rest =>
    let matching := (data.filter (fun row => affirmMatch affirm (rowGet row field))).length
    let percentage := if data.length > 0 then roundPct matching data.length else 0
    { category := letterLabel idx, percentage := percentage } :: batteryFrom data affirm (idx + 1) rest

/-- A battery of likelihood scores over configured fields, starting at
letter `A`. -/
def scoreBattery (data : List CsvRow) (fields affirm : List String) : List Score :=
  batteryFrom data affirm 0 fields

/-- NPS battery fields (server.js:865-870). -/
def npsFields : List String :=
  ["Complete Minor Likelihood", "Repeat Experience Likelihood",
   "Pursue Career Likelihood", "Recommend Friend Likelihood"]

/-- Embedding of `netPromoterScores` (server.js:872-881). -/
def netPromoterScores (filteredExit : List CsvRow) : List Score :=
  scoreBattery filteredExit npsFields ["Likely", "Extremely likely"]

/-- Activity battery fields (server.js:902-909). -/
def activityFields : List String :=
  ["Activity Class Discussion", "Activity HPE DSI Short Course",
   "Activity Class Presentations", "Activity Weekly OneNote",
   "Activity Peer Feedback", "Activity Extra Credit"]

/-- Embedding of `activitiesScores` (server.js:911-920). -/
def activitiesScores (filteredExit : List CsvRow) : List Score :=
  scoreBattery filteredExit activityFields ["Yes"]

/-- Minor values pushed for one entry document (server.js:485-506): array
values are spread, then truthy non-array values are pushed, honors before
other in each group. -/
def minorsValues (entry : JSVal) : List JSVal :=
  let honors := getNestedValue entry "studentInformation.enrolledUHInfo.honorsMinors"
  let other := getNestedValue entry "studentInformation.enrolledUHInfo.otherMinors"
  (match honors with | .arr xs => xs | _ => [])
    ++ (match other with | .arr xs => xs | _ => [])
    ++ (match honors with | .arr _ => [] | v => if jsTruthy v then [v] else [])
    ++ (match other with | .arr _ => [] | v => if jsTruthy v then [v] else [])

/-- Counting pass of the combined-minors distribution (server.js:507-518). -/
def minorsPass (entries : List JSVal) : List (String × Nat) × Nat :=
  ((entries.map minorsValues).flatten).foldl (fun st minor =>
    let value := normalizeJS minor
    if value ≠ "" then (bumpCount st.1 value, st.2 + 1) else st) ([], 0)

/-- Embedding of the duplicated combined-minors block
(server.js:482-526 and 541-585). -/
def combinedMinorsDist (entries : List JSVal) : List DistEntry :=
  distFromCounts (minorsPass entries)

/-- Graduate-school category counters (server.js:608). -/
structure GradCounts where
  masters : Nat
  phd : Nat
  mddo : Nat
  other : Nat
deriving Repr, DecidableEq

/-- Whether a list of characters starts with another. -/
def charListStartsWith : List Char → List Char → Bool
  | _, [] => true
  | [], _ :: _ => false
  | c :: cs, d :: ds => c == d && charListStartsWith cs ds

/-- Whether a list of characters contains another as a contiguous run. -/
def charListIncludes : List Char → List Char → Bool
  | [], sub => sub.isEmpty
  | c :: cs, sub => charListStartsWith (c :: cs) sub || charListIncludes cs sub

/-- Model of `String.prototype.includes`. -/
def strIncludes (s sub : String) : Bool := charListIncludes s.data sub.data

/-- Model of `typeof v === "object"` (arrays and `null` included). -/
def isObjectType : JSVal → Bool
  | .obj _ => true
  | .arr _ => true
  | .null => true
  | _ => false

/-- Label extraction of the graduate-school block (server.js:616-619):
`gradType.label || gradType.id || (gradType.checked ? "Yes" : null)`. -/
def gradLabelOf (gradType : JSVal) : JSVal :=
  let lbl := jsGet gradType "label"
  if jsTruthy lbl then lbl
  else
    let ident := jsGet gradType "id"
    if jsTruthy ident then ident
    else if jsTruthy (jsGet gradType "checked") then .str "Yes" else .null

/-- One step of the graduate-school counting loop (server.js:610-638):
classify the normalized label by substring tests, bumping one category and
the total. -/
def gradClassify (st : GradCounts × Nat) (entry : JSVal) : GradCounts × Nat :=
  let gradType := getNestedValue entry
    "studentInformation.graduateProfessionalSchool.programGradProType"
  if jsTruthy gradType && isObjectType gradType then
    let lbl := gradLabelOf gradType
    if jsTruthy lbl then
      let normalized := jsToLower (jsTrim (jsToString lbl))
      if strIncludes normalized "master" then
        ({ st.1 with masters := st.1.masters + 1 }, st.2 + 1)
      else if strIncludes normalized "phd" || strIncludes normalized "ph.d" then
        ({ st.1 with phd := st.1.phd + 1 }, st.2 + 1)
      else if strIncludes normalized "md" || strIncludes normalized "do"
          || strIncludes normalized "medical" then
        ({ st.1 with mddo := st.1.mddo + 1 }, st.2 + 1)
      else
        ({ st.1 with other := st.1.other + 1 }, st.2 + 1)
    else st
  else st

/-- Counting pass of the graduate-school block (server.js:606-638). -/
def gradPass (entries : List JSVal) : GradCounts × Nat :=
  entries.foldl gradClassify (⟨0, 0, 0, 0⟩, 0)

/-- The four graduate-school entries before filtering and sorting
(server.js:639-644); the literal keys of the categories object are not
array indices, so enumeration order is insertion order. -/
def gradBaseEntries (entries : List JSVal) : List DistEntry :=
  let st := gradPass entries
  [("Masters", st.1.masters), ("PhD", st.1.phd), ("MD/DO", st.1.mddo),
   ("Other", st.1.other)].map (rankedEntry st.2)

/-- Embedding of the `graduateSchoolInterest` block (server.js:606-647):
entries are kept when their count is positive or no record was counted,
then sorted descending by percentage. -/
def graduateSchoolInterest (entries : List JSVal) : List DistEntry :=
  sortByPercentageDesc ((gradBaseEntries entries).filter (fun e =>
    e.count != 0 || (gradPass entries).2 == 0))

/-- A label/percentage pair of the fixed placeholder profiles. -/
structure PctEntry where
  label : String
  percentage : Nat
deriving Repr, DecidableEq

/-- Fixed academic-profile placeholder (server.js:651-671). -/
structure AcademicProfile where
  gpa : List PctEntry
  creditHours : List PctEntry
  research : List PctEntry
  internship : List PctEntry
deriving Repr, DecidableEq

/-- Literal academic-profile constants (server.js:651-671). -/
def academicProfileData : AcademicProfile :=
  { gpa := [⟨"3.5-4.0", 45⟩, ⟨"3.0-3.49", 35⟩, ⟨"2.5-2.99", 15⟩, ⟨"Below 2.5", 5⟩]
    creditHours := [⟨"12-15", 60⟩, ⟨"16-18", 30⟩, ⟨"9-11", 10⟩]
    research := [⟨"Yes", 40⟩, ⟨"No", 60⟩]
    internship := [⟨"Yes", 35⟩, ⟨"No", 65⟩] }

/-- Fixed leadership-profile placeholder (server.js:674-698). -/
structure LeadershipProfile where
  organizations : List PctEntry
  positions : List PctEntry
  volunteerHours : List PctEntry
  serviceProjects : List PctEntry
deriving Repr, DecidableEq

/-- Literal leadership-profile constants (server.js:674-698). -/
def leadershipProfileData : LeadershipProfile :=
  { organizations := [⟨"1-2", 45⟩, ⟨"3-4", 30⟩, ⟨"5+", 15⟩, ⟨"None", 10⟩]
    positions := [⟨"Officer", 25⟩, ⟨"Member", 50⟩, ⟨"President", 15⟩, ⟨"None", 10⟩]
    volunteerHours := [⟨"10-20", 40⟩, ⟨"20-40", 30⟩, ⟨"40+", 20⟩, ⟨"Less than 10", 10⟩]
    serviceProjects := [⟨"1-2", 50⟩, ⟨"3-4", 30⟩, ⟨"5+", 20⟩] }

/-- Fixed research-profile placeholder (server.js:701-723). -/
structure ResearchProfile where
  projects : List PctEntry
  publications : List PctEntry
  presentations : List PctEntry
  posters : List PctEntry
deriving Repr, DecidableEq

/-- Literal research-profile constants (server.js:701-723). -/
def researchProfileData : ResearchProfile :=
  { projects := [⟨"1", 40⟩, ⟨"2", 30⟩, ⟨"3+", 20⟩, ⟨"None", 10⟩]
    publications := [⟨"None", 70⟩, ⟨"1", 20⟩, ⟨"2+", 10⟩]
    presentations := [⟨"None", 60⟩, ⟨"1-2", 30⟩, ⟨"3+", 10⟩]
    posters := [⟨"None", 65⟩, ⟨"1-2", 25⟩, ⟨"3+", 10⟩] }

/-- Demographics block of the profile branch (server.js:478-529). -/
structure Demographics where
  classification : List DistEntry
  gender : List DistEntry
  ethnicity : List DistEntry
  minors : List DistEntry
  firstGeneration : List DistEntry
  international : List DistEntry

/-- General-profile block of the profile branch (server.js:532-648). -/
structure GeneralProfile where
  graduationYear : List DistEntry
  majors : List DistEntry
  minors : List DistEntry
  firstGeneration : List DistEntry
  international : List DistEntry
  housing : List DistEntry
  honorsCollegeAffiliation : List DistEntry
  communityService : List DistEntry
  graduateSchoolInterest : List DistEntry

/-- Template data of the profile branch (server.js:725-739). -/
structure ProfileData where
  experience : String
  session : String
  instructorName : JSVal
  generatedDate : String
  logoBase64 : String
  totalRegistered : Nat
  completedStudents : Nat
  completionPercentage : Nat
  demographics : Demographics
  generalProfile : GeneralProfile
  academicProfile : AcademicProfile
  leadershipProfile : LeadershipProfile
  researchProfile : ResearchProfile

/-- Six named Growth Comparator results (server.js:782-819). -/
structure StudentGrowth where
  teamwork : List GrowthRow
  professionalResponsibility : List GrowthRow
  effectiveCommunication : List GrowthRow
  problemSolving : List GrowthRow
  culturalHumility : List GrowthRow
  ethicalDecisionMaking : List GrowthRow
deriving Repr, DecidableEq

/-- A category/percentage row of the progress and connection
distributions. -/
structure PctRow where
  category : String
  percentage : Nat
deriving Repr, DecidableEq

/-- One lettered description sentence. -/
structure Description where
  label : String
  text : String
deriving Repr, DecidableEq

/-- Template data of the growth branch (server.js:959-979). -/
structure GrowthData where
  experience : String
  generatedDate : String
  logoBase64 : String
  totalRegistered : Nat
  goalSettingCompleted : Nat
  goalSettingPercentage : Nat
  exitFormCompleted : Nat
  exitFormPercentage : Nat
  totalGoals : Nat
  studentGrowth : StudentGrowth
  progressTowardsGoals : List PctRow
  experienceConnection : List PctRow
  netPromoterScores : List Score
  netPromoterDescriptions : List Description
  activitiesScores : List Score
  activitiesDescriptions : List Description
  biggestLessons : List String
  experienceContributions : List String
  additionalComments : List String

/-- Whether a goal text cell is filled:
`row[field] && row[field].trim()` (server.js:777-779). -/
def goalFilled (row : CsvRow) (field : String) : Bool :=
  match rowGet row field with
  | some v => v != "" && jsTrim v != ""
  | none => false

/-- Embedding of the `totalGoals` loop (server.js:775-780). -/
def countFilledGoals (rows : List CsvRow) : Nat :=
  rows.foldl (fun total row =>
    let t1 := if goalFilled row "Goal 1" then total + 1 else total
    let t2 := if goalFilled row "Goal 2" then t1 + 1 else t1
    if goalFilled row "Goal 3" then t2 + 1 else t2) 0

/-- Model of `counts[k]++` on a fixed-key counts object: only an existing
key is bumped. -/
def bumpIfPresent (m : List (String × Nat)) (k : String) : List (String × Nat) :=
  m.map (fun p => if p.1 = k then (p.1, p.2 + 1) else p)

/-- Fixed-category tally over several columns of every row
(server.js:823-832 and 845-854): a truthy cell that is an own key of the
counts object bumps that key. -/
def tallyFixed (init : List (String × Nat)) (rows : List CsvRow)
    (fields : List String) : List (String × Nat) :=
  rows.foldl (fun m row =>
    fields.foldl (fun m field =>
      match rowGet row field with
      | some v => if v != "" && m.any (fun p => p.1 == v) then bumpIfPresent m v else m
      | none => m) m) init

/-- Count looked up for one fixed category. -/
def lookupCount (m : List (String × Nat)) (k : String) : Nat :=
  ((m.find? (fun p => p.1 == k)).map (fun p => p.2)).getD 0

/-- Embedding of `progressTowardsGoals` (server.js:821-841). -/
def progressTowardsGoals (filteredExit : List CsvRow) : List PctRow :=
  let counts := tallyFixed [("None", 0), ("Little", 0), ("Some", 0), ("Lots", 0)]
    filteredExit ["Goal 1 Progress", "Goal 2 Progress", "Goal 3 Progress"]
  let total := orOne (sumVals counts)
  ["None", "Little", "Some", "Lots"].map (fun cat =>
    { category := cat, percentage := roundPct (lookupCount counts cat) total })

/-- Embedding of `experienceConnection` (server.js:843-863). -/
def experienceConnection (filteredExit : List CsvRow) : List PctRow :=
  let counts := tallyFixed [("None", 0), ("Partly", 0), ("Largely", 0)]
    filteredExit ["Goal 1 Connection", "Goal 2 Connection", "Goal 3 Connection"]
  let total := orOne (sumVals counts)
  ["None", "Partly", "Largely"].map (fun cat =>
    { category := cat, percentage := roundPct (lookupCount counts cat) total })

/-- Percentage of the score at one position of a battery; the batteries the
descriptions index are the literal four- and six-field ones, so the index is
always in range. -/
def scorePctAt (scores : List Score) (i : Nat) : Nat :=
  ((scores.get? i).map Score.percentage).getD 0

/-- Embedding of `netPromoterDescriptions` (server.js:883-900). -/
def netPromoterDescriptions (nps : List Score) : List Description :=
  [{ label := "A",
     text := toString (scorePctAt nps 0)
       ++ "% of students reported they are likely to extremely likely to complete the Data & Society minor" },
   { label := "B",
     text := toString (scorePctAt nps 1)
       ++ "% reported they are likely to extremely likely to enroll in another course/repeat the experience" },
   { label := "C",
     text := toString (scorePctAt nps 2)
       ++ "% reported they are extremely likely to pursue a career in data science" },
   { label := "D",
     text := toString (scorePctAt nps 3)
       ++ "% reported they are likely to extremely likely to recommend this course/experience to a friend" }]

/-- Embedding of `activitiesDescriptions` (server.js:922-947). -/
def activitiesDescriptions (scores : List Score) : List Description :=
  [{ label := "A", text := toString (scorePctAt scores 0) ++ "% Class discussion" },
   { label := "B", text := toString (scorePctAt scores 1) ++ "% HPE DSI Short Course" },
   { label := "C", text := toString (scorePctAt scores 2) ++ "% Class Presentations" },
   { label := "D", text := toString (scorePctAt scores 3) ++ "% Weekly OneNote check ins" },
   { label := "E", text := toString (scorePctAt scores 4) ++ "% Anonymous Peer feedback (Teammates)" },
   { label := "F", text := toString (scorePctAt scores 5) ++ "% Extra Credit Report" }]

/-- Free-text collection (server.js:949-957): the raw cell values whose
trimmed value is non-empty. -/
def nonEmptyTexts (rows : List CsvRow) (field : String) : List String :=
  (rows.map (fun row => rowGet row field)).filterMap (fun cell =>
    match cell with
    | some v => if v != "" && jsTrim v != "" then some v else none
    | none => none)

/-- The two failures the report endpoint signals before assembling a bundle
(server.js:352-358). -/
inductive ReportError where
  | sessionRequired : ReportError
  | experienceRequired : ReportError
deriving Repr, DecidableEq

/-- A complete report data bundle of either branch. -/
inductive Bundle where
  | profile : ProfileData → Bundle
  | growth : GrowthData → Bundle

/-- Input of one report-generation request, with the outside collaborators
(document-store aggregation counts, fetched record sets, logo file, clock)
materialized at the record-source boundary of the spec. -/
structure GenInput where
  reportType : JSVal
  sessionId : JSVal
  sessionLabel : JSVal
  experienceId : JSVal
  experienceLabel : JSVal
  instructorName : JSVal
  logoBase64 : String
  now : String
  goalAggCount : Option Nat
  registeredAggCount : Option Nat
  profileEntries : List JSVal
  goalData : List CsvRow
  entryData : List CsvRow
  exitData : List CsvRow

/-- Identifier extraction (server.js:334-337 and 343-346):
`x === undefined || x === null ? "" : String(x).trim()`. -/
def idString (v : JSVal) : String :=
  match v with
  | .undefined => ""
  | .null => ""
  | v => jsTrim (jsToString v)

/-- Display-label extraction (server.js:338-341 and 347-350): the trimmed
label when present and non-empty, else the identifier value. -/
def displayString (label : JSVal) (fallback : String) : String :=
  match label with
  | .undefined => fallback
  | .null => fallback
  | v => let t := jsTrim (jsToString v); if t = "" then fallback else t

/-- Model of `reportType === "profile"` (server.js:366). -/
def isProfileType : JSVal → Bool
  | .str s => s == "profile"
  | _ => false

/-- Profile-branch template data (server.js:366-739), over materialized
aggregation counts and entry-form documents. -/
def mkProfileData (sessionDisplay experienceDisplay : String) (inp : GenInput) :
    ProfileData :=
  let completedStudents := inp.goalAggCount.getD 0
  let totalRegistered := inp.registeredAggCount.getD 0
  let completionPercentage :=
    if totalRegistered > 0 then roundPct completedStudents totalRegistered else 0
  { experience := experienceDisplay
    session := sessionDisplay
    instructorName := inp.instructorName
    generatedDate := inp.now
    logoBase64 := inp.logoBase64
    totalRegistered := totalRegistered
    completedStudents := completedStudents
    completionPercentage := completionPercentage
    demographics :=
      { classification := []
        gender := []
        ethnicity := []
        minors := combinedMinorsDist inp.profileEntries
        firstGeneration := []
        international := [] }
    generalProfile :=
      { graduationYear := calculateDistribution inp.profileEntries
          "studentInformation.enrolledUHInfo.expectedGraduationYear"
        majors := calculateDistributionFromArray inp.profileEntries
          "studentInformation.enrolledUHInfo.majors"
        minors := combinedMinorsDist inp.profileEntries
        firstGeneration := []
        international := []
        housing := calculateBooleanDistribution inp.profileEntries
          "studentInformation.enrolledUHInfo.livingOnCampus" "On Campus" "Off Campus"
        honorsCollegeAffiliation := calculateBooleanDistribution inp.profileEntries
          "studentInformation.enrolledUHInfo.honorsCollegeAffiliatedStatus" "Yes" "No"
        communityService := calculateBooleanDistribution inp.profileEntries
          "studentInformation.communityServiceInfo.serviceStatus" "Yes" "No"
        graduateSchoolInterest := graduateSchoolInterest inp.profileEntries }
    academicProfile := academicProfileData
    leadershipProfile := leadershipProfileData
    researchProfile := researchProfileData }

/-- Growth-branch template data (server.js:740-979), over materialized CSV
record sets. -/
def mkGrowthData (experienceValue : String) (inp : GenInput) : GrowthData :=
  let filteredGoals := inp.goalData.filter (fun row =>
    rowGet row "Experience" == some experienceValue)
  let filteredEntry := inp.entryData.filter (fun row =>
    rowGet row "Experience" == some experienceValue)
  let filteredExit := inp.exitData.filter (fun row =>
    rowGet row "Experience" == some experienceValue)
  let totalRegistered := filteredEntry.length
  let goalSettingCompleted := filteredGoals.length
  let exitFormCompleted := filteredExit.length
  let goalSettingPercentage :=
    if totalRegistered > 0 then roundPct goalSettingCompleted totalRegistered else 0
  let exitFormPercentage :=
    if totalRegistered > 0 then roundPct exitFormCompleted totalRegistered else 0
  let nps := netPromoterScores filteredExit
  let acts := activitiesScores filteredExit
  { experience := experienceValue
    generatedDate := inp.now
    logoBase64 := inp.logoBase64
    totalRegistered := totalRegistered
    goalSettingCompleted := goalSettingCompleted
    goalSettingPercentage := goalSettingPercentage
    exitFormCompleted := exitFormCompleted
    exitFormPercentage := exitFormPercentage
    totalGoals := countFilledGoals filteredGoals
    studentGrowth :=
      { teamwork := calculateGrowthData filteredGoals filteredExit
          "Teamwork Expected" "Teamwork Achieved"
        professionalResponsibility := calculateGrowthData filteredGoals filteredExit
          "Professional Responsibility Expected" "Professional Responsibility Achieved"
        effectiveCommunication := calculateGrowthData filteredGoals filteredExit
          "Effective Communication Expected" "Effective Communication Achieved"
        problemSolving := calculateGrowthData filteredGoals filteredExit
          "Problem Solving Expected" "Problem Solving Achieved"
        culturalHumility := calculateGrowthData filteredGoals filteredExit
          "Cultural Humility Expected" "Cultural Humility Achieved"
        ethicalDecisionMaking := calculateGrowthData filteredGoals filteredExit
          "Ethical Decision Making Expected" "Ethical Decision Making Achieved" }
    progressTowardsGoals := progressTowardsGoals filteredExit
    experienceConnection := experienceConnection filteredExit
    netPromoterScores := nps
    netPromoterDescriptions := netPromoterDescriptions nps
    activitiesScores := acts
    activitiesDescriptions := activitiesDescriptions acts
    biggestLessons := nonEmptyTexts filteredExit "Biggest Lesson Learned"
    experienceContributions := nonEmptyTexts filteredExit "Experience Contribution"
    additionalComments := nonEmptyTexts filteredExit "Additional Comments" }

/-- Embedding of the decision core of the report endpoint (server.js:323-980):
validate the identifying filters, then assemble the branch selected by
`reportType === "profile"`; every other discriminator value selects the
growth branch. -/
def generateReportData (inp : GenInput) : Except ReportError Bundle :=
  let sessionValue := idString inp.sessionId
  let sessionDisplay := displayString inp.sessionLabel sessionValue
  let experienceValue := idString inp.experienceId
  let experienceDisplay := displayString inp.experienceLabel experienceValue
  if sessionValue = "" then .error .sessionRequired
  else if experienceValue = "" then .error .experienceRequired
  else if isProfileType inp.reportType then
    .ok (.profile (mkProfileData sessionDisplay experienceDisplay inp))
  else
    .ok (.growth (mkGrowthData experienceValue inp))

/-- Blank the generated-date field of a bundle, the only time-dependent
part. -/
def eraseGeneratedDate : Bundle → Bundle
  | .profile d => .profile { d with generatedDate := "" }
  | .growth d => .growth { d with generatedDate := "" }

/-- The labels of a scalar counting pass in first-seen insertion order. -/
def firstSeenLabels (data : List JSVal) (field : String) : List String :=
  ((scalarPass data field).1).map (fun p => p.1)

/-- Invariant of a counting pass: the stored counts sum to the running
total. -/
def countsInv (st : List (String × Nat) × Nat) : Prop := sumVals st.1 = st.2

/-- Three entry documents giving counts x: 2, y: 1. -/
def c2Rows : List JSVal :=
  [.obj [("f", .str "x")], .obj [("f", .str "x")], .obj [("f", .str "y")]]

/-- Two entry documents whose labels are the numeric strings 2 then 1, with
equal percentages. -/
def c4Rows : List JSVal := [.obj [("f", .str "2")], .obj [("f", .str "1")]]

/-- A record whose field `a` holds a string, a non-traversable
intermediate for the path `a.b`. -/
def c5Record : JSVal := .obj [("a", .str "hi")]

/-- Two entry documents in which the probed field is absent. -/
def c6Rows : List JSVal := [.obj [("other", .str "v")], .obj []]

/-- One entry document whose graduate-school program type is labelled as a
masters program. -/
def c9Rows : List JSVal :=
  [.obj [("studentInformation", .obj [("graduateProfessionalSchool",
    .obj [("programGradProType", .obj [("label", .str "Masters program")])])])]]

/-- A request with both identifying filters present and a discriminator
that is neither profile nor growth. -/
def unknownKindInput : GenInput :=
  { reportType := .str "banana", sessionId := .str "s1", sessionLabel := .undefined,
    experienceId := .str "e1", experienceLabel := .undefined, instructorName := .undefined,
    logoBase64 := "", now := "1/1/2026", goalAggCount := none,
    registeredAggCount := none, profileEntries := [], goalData := [],
    entryData := [], exitData := [] }

theorem sumVals_nil : sumVals [] = 0 := rfl

theorem sumVals_cons (p : String × Nat) (m : List (String × Nat)) :
    sumVals (p :: m) = p.2 + sumVals m := by
  simp [sumVals]

theorem sumVals_bumpCount (m : List (String × Nat)) (k : String) :
    sumVals (bumpCount m k) = sumVals m + 1 := by
  induction m with
  | nil => simp [bumpCount, sumVals]
  | cons p rest ih =>
    obtain ⟨k0, c0⟩ := p
    by_cases h : k0 = k
    · simp [bumpCount, h, sumVals_cons]
      omega
    · simp [bumpCount, h, sumVals_cons, ih]
      omega

theorem value_le_sumVals {m : List (String × Nat)} {k : String} {c : Nat}
    (h : (k, c) ∈ m) : c ≤ sumVals m := by
  induction m with
  | nil => cases h
  | cons p rest ih =>
    rcases List.mem_cons.mp h with h | h
    · rw [← h, sumVals_cons]
      omega
    · have := ih h
      rw [sumVals_cons]
      omega

theorem foldl_countsInv {α : Type} {f : (List (String × Nat) × Nat) → α → (List (String × Nat) × Nat)}
    (hf : ∀ st a, countsInv st → countsInv (f st a)) :
    ∀ (l : List α) (st : List (String × Nat) × Nat), countsInv st → countsInv (l.foldl f st) := by
  intro l
  induction l with
  | nil => intro st h; exact h
  | cons a rest ih => intro st h; exact ih _ (hf st a h)

theorem countsInv_scalarPass (data : List JSVal) (field : String) :
    countsInv (scalarPass data field) := by
  refine foldl_countsInv ?_ data ([], 0) rfl
  intro st row h
  dsimp only
  by_cases hv : normalizeJS (getNestedValue row field) ≠ ""
  · simp only [if_pos hv, countsInv, sumVals_bumpCount]
    rw [h]
  · simp only [if_neg hv]
    exact h

theorem countsInv_arrayPass (data : List JSVal) (field : String) :
    countsInv (arrayPass data field) := by
  refine foldl_countsInv ?_ data ([], 0) rfl
  intro st row h
  dsimp only
  cases hg : getNestedValue row field with
  | undefined => exact h
  | null => exact h
  | arr items =>
    refine foldl_countsInv ?_ items st h
    intro st2 item h2
    dsimp only
    by_cases hv : normalizeJS item ≠ ""
    · simp only [if_pos hv, countsInv, sumVals_bumpCount]
      rw [h2]
    · simp only [if_neg hv]
      exact h2
  | bool b =>
    dsimp only
    by_cases hv : jsTrim (jsToString (JSVal.bool b)) ≠ ""
    · simp only [if_pos hv, countsInv, sumVals_bumpCount]
      rw [h]
    · simp only [if_neg hv]
      exact h
  | num n =>
    dsimp only
    by_cases hv : jsTrim (jsToString (JSVal.num n)) ≠ ""
    · simp only [if_pos hv, countsInv, sumVals_bumpCount]
      rw [h]
    · simp only [if_neg hv]
      exact h
  | str s =>
    dsimp only
    by_cases hv : jsTrim (jsToString (JSVal.str s)) ≠ ""
    · simp only [if_pos hv, countsInv, sumVals_bumpCount]
      rw [h]
    · simp only [if_neg hv]
      exact h
  | obj fields =>
    dsimp only
    by_cases hv : jsTrim (jsToString (JSVal.obj fields)) ≠ ""
    · simp only [if_pos hv, countsInv, sumVals_bumpCount]
      rw [h]
    · simp only [if_neg hv]
      exact h

theorem sumVals_boolInit (trueLabel falseLabel : String) :
    sumVals (boolInit trueLabel falseLabel) = 0 := by
  by_cases h : trueLabel = falseLabel <;>
    simp [boolInit, jsSet, h, sumVals]

theorem countsInv_boolPass (data : List JSVal) (field trueLabel falseLabel : String) :
    countsInv (boolPass data field trueLabel falseLabel) := by
  refine foldl_countsInv ?_ data (boolInit trueLabel falseLabel, 0) (sumVals_boolInit ..)
  intro st row h
  unfold boolStep
  cases hg : getNestedValue row field with
  | undefined => exact h
  | null => exact h
  | bool b => simp only [countsInv, sumVals_bumpCount]; rw [h]
  | num n => simp only [countsInv, sumVals_bumpCount]; rw [h]
  | str s => simp only [countsInv, sumVals_bumpCount]; rw [h]
  | arr items => simp only [countsInv, sumVals_bumpCount]; rw [h]
  | obj fields => simp only [countsInv, sumVals_bumpCount]; rw [h]

theorem countsInv_minorsPass (entries : List JSVal) :
    countsInv (minorsPass entries) := by
  refine foldl_countsInv ?_ _ ([], 0) rfl
  intro st minor h
  dsimp only
  by_cases hv : normalizeJS minor ≠ ""
  · simp only [if_pos hv, countsInv, sumVals_bumpCount]
    rw [h]
  · simp only [if_neg hv]
    exact h

theorem insertEntry_perm (e : DistEntry) (l : List DistEntry) :
    (insertEntry e l).Perm (e :: l) := by
  induction l with
  | nil => exact List.Perm.refl _
  | cons x xs ih =>
    by_cases h : e.percentage < x.percentage
    · simp only [insertEntry, if_pos h]
      exact (ih.cons x).trans (List.Perm.swap e x xs)
    · simp only [insertEntry, if_neg h]
      exact List.Perm.refl _

theorem sortByPercentageDesc_perm (l : List DistEntry) :
    (sortByPercentageDesc l).Perm l := by
  induction l with
  | nil => exact List.Perm.refl _
  | cons e rest ih =>
    exact (insertEntry_perm e (sortByPercentageDesc rest)).trans (ih.cons e)

theorem insertByIndexKey_perm (p : String × Nat) (l : List (String × Nat)) :
    (insertByIndexKey p l).Perm (p :: l) := by
  induction l with
  | nil => exact List.Perm.refl _
  | cons q qs ih =>
    by_cases h : (charsToNat? q.1.data).getD 0 ≤ (charsToNat? p.1.data).getD 0
    · simp only [insertByIndexKey, if_pos h]
      exact (ih.cons q).trans (List.Perm.swap p q qs)
    · simp only [insertByIndexKey, if_neg h]
      exact List.Perm.refl _

theorem sortByIndexKey_perm (l : List (String × Nat)) :
    (sortByIndexKey l).Perm l := by
  induction l with
  | nil => exact List.Perm.refl _
  | cons p rest ih =>
    exact (insertByIndexKey_perm p (sortByIndexKey rest)).trans (ih.cons p)

theorem jsEntries_perm (m : List (String × Nat)) : (jsEntries m).Perm m := by
  unfold jsEntries
  exact ((sortByIndexKey_perm _).append (List.Perm.refl _)).trans
    (List.filter_append_perm _ m)

theorem pairwise_insertEntry {l : List DistEntry} (e : DistEntry)
    (h : l.Pairwise (fun a b => b.percentage ≤ a.percentage)) :
    (insertEntry e l).Pairwise (fun a b => b.percentage ≤ a.percentage) := by
  induction l with
  | nil => simp [insertEntry]
  | cons x xs ih =>
    rcases List.pairwise_cons.mp h with ⟨hx, hxs⟩
    by_cases hc : e.percentage < x.percentage
    · simp only [insertEntry, if_pos hc]
      refine List.pairwise_cons.mpr ⟨?_, ih hxs⟩
      intro y hy
      rcases List.mem_cons.mp ((insertEntry_perm e xs).mem_iff.mp hy) with hm | hm
      · rw [hm]; exact Nat.le_of_lt hc
      · exact hx y hm
    · simp only [insertEntry, if_neg hc]
      refine List.pairwise_cons.mpr ⟨?_, h⟩
      intro y hy
      rcases List.mem_cons.mp hy with hm | hm
      · rw [hm]; exact Nat.le_of_not_lt hc
      · exact Nat.le_trans (hx y hm) (Nat.le_of_not_lt hc)

theorem pairwise_sortByPercentageDesc (l : List DistEntry) :
    (sortByPercentageDesc l).Pairwise (fun a b => b.percentage ≤ a.percentage) := by
  induction l with
  | nil => simp [sortByPercentageDesc]
  | cons e rest ih => exact pairwise_insertEntry e ih

theorem filter_insertEntry (e : DistEntry) (l : List DistEntry) (p : Nat) :
    (insertEntry e l).filter (fun x => x.percentage == p)
      = if e.percentage = p then e :: l.filter (fun x => x.percentage == p)
        else l.filter (fun x => x.percentage == p) := by
  induction l with
  | nil =>
    by_cases h : e.percentage = p <;> simp [insertEntry, List.filter_cons, h]
  | cons x xs ih =>
    by_cases hc : e.percentage < x.percentage
    · simp only [insertEntry, if_pos hc]
      by_cases hp : e.percentage = p
      · have hxp : (x.percentage == p) = false := by
          refine beq_eq_false_iff_ne.mpr ?_
          omega
        simp [List.filter_cons, hxp, ih, hp]
      · simp [List.filter_cons, ih, hp]
    · simp only [insertEntry, if_neg hc]
      by_cases hp : e.percentage = p <;> simp [List.filter_cons, hp]

theorem filter_sortByPercentageDesc (l : List DistEntry) (p : Nat) :
    (sortByPercentageDesc l).filter (fun x => x.percentage == p)
      = l.filter (fun x => x.percentage == p) := by
  induction l with
  | nil => rfl
  | cons e rest ih =>
    rw [sortByPercentageDesc, filter_insertEntry]
    by_cases hp : e.percentage = p
    · simp [hp, List.filter_cons, ih]
    · simp [hp, List.filter_cons, ih]

theorem roundPct_le_100 {c t : Nat} (hct : c ≤ t) (ht : 0 < t) :
    roundPct c t ≤ 100 := by
  have h2t : 0 < 2 * t := by omega
  have h := (Nat.div_lt_iff_lt_mul h2t).mpr
    (show 200 * c + t < 101 * (2 * t) by omega)
  unfold roundPct
  omega

theorem sum_counts_distFromCounts (st : List (String × Nat) × Nat)
    (h : countsInv st) :
    ((distFromCounts st).map DistEntry.count).sum = st.2 := by
  unfold distFromCounts rankedEntries
  rw [((sortByPercentageDesc_perm _).map DistEntry.count).sum_eq]
  rw [List.map_map]
  have heq : ((jsEntries st.1).map (DistEntry.count ∘ rankedEntry st.2))
      = (jsEntries st.1).map (fun p => p.2) :=
    List.map_congr_left (fun p _ => rfl)
  rw [heq, ((jsEntries_perm st.1).map (fun p => p.2)).sum_eq]
  exact h

theorem mem_distFromCounts {st : List (String × Nat) × Nat} {e : DistEntry}
    (he : e ∈ distFromCounts st) :
    ∃ p ∈ st.1, e = rankedEntry st.2 p := by
  unfold distFromCounts rankedEntries at he
  have hm := (sortByPercentageDesc_perm _).mem_iff.mp he
  rcases List.mem_map.mp hm with ⟨p, hp, hpe⟩
  exact ⟨p, (jsEntries_perm st.1).mem_iff.mp hp, hpe.symm⟩

theorem pct_rankedEntry_le_100 {total : Nat} {p : String × Nat}
    (hle : p.2 ≤ total) : (rankedEntry total p).percentage ≤ 100 := by
  unfold rankedEntry
  dsimp only
  by_cases ht : total > 0
  · rw [if_pos ht]
    exact roundPct_le_100 hle ht
  · rw [if_neg ht]
    exact Nat.zero_le _

theorem pct_le_100_distFromCounts {st : List (String × Nat) × Nat}
    (h : countsInv st) : ∀ e ∈ distFromCounts st, e.percentage ≤ 100 := by
  intro e he
  rcases mem_distFromCounts he with ⟨p, hp, rfl⟩
  refine pct_rankedEntry_le_100 ?_
  rw [← h]
  exact value_le_sumVals (show (p.1, p.2) ∈ st.1 from hp)

theorem pct_zero_distFromCounts {st : List (String × Nat) × Nat}
    (h0 : st.2 = 0) : ∀ e ∈ distFromCounts st, e.percentage = 0 := by
  intro e he
  rcases mem_distFromCounts he with ⟨p, hp, rfl⟩
  simp [rankedEntry, h0]

/-- C2: for every record set and field, each distribution calculator
(scalar, array-expanding, boolean) returns a distribution whose counts sum
to the total used as denominator, whose percentages all lie between 0 and
100, and which, when the total is 0, has every percentage equal to 0 and is
still returned (the embedding is a total function, so no division by zero
or exception is possible). -/
theorem distribution_calculator_invariants :
    ∀ (data : List JSVal) (field trueLabel falseLabel : String),
      (((calculateDistribution data field).map DistEntry.count).sum
          = (scalarPass data field).2
        ∧ (∀ e ∈ calculateDistribution data field,
            0 ≤ e.percentage ∧ e.percentage ≤ 100)
        ∧ ((scalarPass data field).2 = 0 →
            ∀ e ∈ calculateDistribution data field, e.percentage = 0))
      ∧ (((calculateDistributionFromArray data field).map DistEntry.count).sum
          = (arrayPass data field).2
        ∧ (∀ e ∈ calculateDistributionFromArray data field,
            0 ≤ e.percentage ∧ e.percentage ≤ 100)
        ∧ ((arrayPass data field).2 = 0 →
            ∀ e ∈ calculateDistributionFromArray data field, e.percentage = 0))
      ∧ (((calculateBooleanDistribution data field trueLabel falseLabel).map
            DistEntry.count).sum = (boolPass data field trueLabel falseLabel).2
        ∧ (∀ e ∈ calculateBooleanDistribution data field trueLabel falseLabel,
            0 ≤ e.percentage ∧ e.percentage ≤ 100)
        ∧ ((boolPass data field trueLabel falseLabel).2 = 0 →
            ∀ e ∈ calculateBooleanDistribution data field trueLabel falseLabel,
              e.percentage = 0)) := by
  intro data field trueLabel falseLabel
  refine ⟨⟨?_, ?_, ?_⟩, ⟨?_, ?_, ?_⟩, ⟨?_, ?_, ?_⟩⟩
  · exact sum_counts_distFromCounts _ (countsInv_scalarPass data field)
  · exact fun e he =>
      ⟨Nat.zero_le _, pct_le_100_distFromCounts (countsInv_scalarPass data field) e he⟩
  · exact fun h0 => pct_zero_distFromCounts h0
  · exact sum_counts_distFromCounts _ (countsInv_arrayPass data field)
  · exact fun e he =>
      ⟨Nat.zero_le _, pct_le_100_distFromCounts (countsInv_arrayPass data field) e he⟩
  · exact fun h0 => pct_zero_distFromCounts h0
  · exact sum_counts_distFromCounts _ (countsInv_boolPass data field trueLabel falseLabel)
  · exact fun e he =>
      ⟨Nat.zero_le _,
        pct_le_100_distFromCounts (countsInv_boolPass data field trueLabel falseLabel) e he⟩
  · exact fun h0 => pct_zero_distFromCounts h0

/-- Witness for C2: the invariants evaluated on a concrete record set,
with the inner membership and zero-total hypotheses discharged on concrete
entries. -/
theorem distribution_calculator_invariants_witness :
    ((calculateDistribution c2Rows "f").map DistEntry.count).sum
        = (scalarPass c2Rows "f").2
    ∧ (0 ≤ (DistEntry.mk "x" 2 67).percentage
        ∧ (DistEntry.mk "x" 2 67).percentage ≤ 100)
    ∧ (DistEntry.mk "Yes" 0 0).percentage = 0 :=
  ⟨(distribution_calculator_invariants c2Rows "f" "Yes" "No").1.1,
   (distribution_calculator_invariants c2Rows "f" "Yes" "No").1.2.1
     (DistEntry.mk "x" 2 67) (by decide),
   (distribution_calculator_invariants c2Rows "missing" "Yes" "No").2.2.2.2
     (by decide) (DistEntry.mk "Yes" 0 0) (by decide)⟩

/-- C4 counterexample: with the numeric-looking labels 2 (first seen) and
1, both at 50 percent, the distribution lists 1 before 2 — ascending
numeric key order of the counts object, not first-seen order. -/
theorem distribution_tie_order_counterexample :
    firstSeenLabels c4Rows "f" = ["2", "1"]
    ∧ calculateDistribution c4Rows "f"
        = [DistEntry.mk "1" 1 50, DistEntry.mk "2" 1 50] := by
  constructor
  · decide
  · decide

/-- C4 amended: the scalar and array distributions are sorted descending by
percentage, and entries of equal percentage appear in the enumeration order
of the counts object (canonical array-index labels first in ascending
numeric order, then remaining labels in first-seen order), stated as
filter-stability against the pre-sort entry list. -/
theorem distribution_order_amended :
    ∀ (data : List JSVal) (field : String) (p : Nat),
      ((calculateDistribution data field).Pairwise
          (fun a b => b.percentage ≤ a.percentage)
        ∧ (calculateDistribution data field).filter (fun e => e.percentage == p)
            = (rankedEntries (scalarPass data field)).filter
                (fun e => e.percentage == p))
      ∧ ((calculateDistributionFromArray data field).Pairwise
          (fun a b => b.percentage ≤ a.percentage)
        ∧ (calculateDistributionFromArray data field).filter
              (fun e => e.percentage == p)
            = (rankedEntries (arrayPass data field)).filter
                (fun e => e.percentage == p)) := by
  intro data field p
  exact ⟨⟨pairwise_sortByPercentageDesc _, filter_sortByPercentageDesc _ p⟩,
    ⟨pairwise_sortByPercentageDesc _, filter_sortByPercentageDesc _ p⟩⟩

theorem walkPath_undef (l : List String) : walkPath .undefined l = .undefined := by
  cases l <;> rfl

theorem walkPath_append (l₁ l₂ : List String) (v : JSVal) :
    walkPath v (l₁ ++ l₂) = walkPath (walkPath v l₁) l₂ := by
  induction l₁ generalizing v with
  | nil => cases v <;> rfl
  | cons p rest ih =>
    cases v with
    | undefined => exact (walkPath_undef l₂).symm
    | null => exact (walkPath_undef l₂).symm
    | bool b => exact ih (jsGet (JSVal.bool b) p)
    | num n => exact ih (jsGet (JSVal.num n) p)
    | str s => exact ih (jsGet (JSVal.str s) p)
    | arr xs => exact ih (jsGet (JSVal.arr xs) p)
    | obj fs => exact ih (jsGet (JSVal.obj fs) p)

theorem walkPath_nontraversable {v : JSVal} (hv : isTraversable v = false)
    (p : String) (rest : List String) : walkPath v (p :: rest) = .undefined := by
  cases v with
  | undefined => rfl
  | null => rfl
  | bool b => exact walkPath_undef rest
  | num n => exact walkPath_undef rest
  | str s => exact walkPath_undef rest
  | arr xs => simp [isTraversable] at hv
  | obj fs => simp [isTraversable] at hv

/-- C5: whenever the value reached after consuming a proper prefix of the
dot-separated keys is not a traversable mapping (missing, null, or a
primitive such as a string, number, or boolean), the Field Resolver returns
undefined; being a total Lean function, it does so without raising. -/
theorem field_resolver_tolerates_nontraversable :
    ∀ (record : JSVal) (path : String) (i : Nat),
      i < (splitOnDot path).length →
      isTraversable (walkPath record ((splitOnDot path).take i)) = false →
      getNestedValue record path = .undefined := by
  intro record path i hi hnt
  unfold getNestedValue
  by_cases h1 : jsTruthy record = false
  · rw [if_pos h1]
  · rw [if_neg h1]
    by_cases h2 : path = ""
    · rw [if_pos h2]
    · rw [if_neg h2]
      have hsplit := (List.take_append_drop i (splitOnDot path)).symm
      rw [hsplit, walkPath_append]
      cases hdrop : (splitOnDot path).drop i with
      | nil =>
        exfalso
        have := List.drop_eq_nil_iff.mp hdrop
        omega
      | cons p rest => exact walkPath_nontraversable hnt p rest

/-- Witness for C5: on the record with a string at `a`, the path `a.b` has
a non-traversable intermediate after one key, and resolution returns
undefined. -/
theorem field_resolver_tolerates_witness :
    (1 < (splitOnDot "a.b").length
      ∧ isTraversable (walkPath c5Record ((splitOnDot "a.b").take 1)) = false)
    ∧ getNestedValue c5Record "a.b" = .undefined :=
  ⟨⟨by decide, by decide⟩,
   field_resolver_tolerates_nontraversable c5Record "a.b" 1 (by decide) (by decide)⟩

/-- C10: the Field Resolver returns undefined whenever the record argument
is falsy (undefined, null, false, 0, or the empty string) or the path
argument is the empty string, the guard firing before any key traversal. -/
theorem field_resolver_falsy_guard :
    ∀ (record : JSVal) (path : String),
      jsTruthy record = false ∨ path = "" →
      getNestedValue record path = .undefined := by
  intro record path h
  unfold getNestedValue
  rcases h with h | h
  · rw [if_pos h]
  · by_cases h1 : jsTruthy record = false
    · rw [if_pos h1]
    · rw [if_neg h1, if_pos h]

/-- Witness for C10: a null record with a real path, and a real record with
an empty path, both resolve to undefined. -/
theorem field_resolver_falsy_guard_witness :
    getNestedValue JSVal.null "a.b" = .undefined
    ∧ getNestedValue (JSVal.obj [("a", JSVal.str "1")]) "" = .undefined :=
  ⟨field_resolver_falsy_guard JSVal.null "a.b" (Or.inl rfl),
   field_resolver_falsy_guard (JSVal.obj [("a", JSVal.str "1")]) "" (Or.inr rfl)⟩

theorem boolStep_absent {field trueLabel falseLabel : String}
    {st : List (String × Nat) × Nat} {row : JSVal}
    (h : isAbsent (getNestedValue row field) = true) :
    boolStep field trueLabel falseLabel st row = st := by
  unfold boolStep
  cases hg : getNestedValue row field with
  | undefined => rfl
  | null => rfl
  | bool b => rw [hg] at h; simp [isAbsent] at h
  | num n => rw [hg] at h; simp [isAbsent] at h
  | str s => rw [hg] at h; simp [isAbsent] at h
  | arr xs => rw [hg] at h; simp [isAbsent] at h
  | obj fs => rw [hg] at h; simp [isAbsent] at h

theorem foldl_boolStep_absent (field trueLabel falseLabel : String) :
    ∀ (data : List JSVal) (st : List (String × Nat) × Nat),
      (∀ r ∈ data, isAbsent (getNestedValue r field) = true) →
      data.foldl (boolStep field trueLabel falseLabel) st = st := by
  intro data
  induction data with
  | nil => intro st _; rfl
  | cons r rest ih =>
    intro st h
    rw [List.foldl_cons, boolStep_absent (h r (List.mem_cons_self r rest))]
    exact ih st (fun x hx => h x (List.mem_cons_of_mem r hx))

theorem boolInit_of_ne {trueLabel falseLabel : String}
    (hne : trueLabel ≠ falseLabel) :
    boolInit trueLabel falseLabel = [(trueLabel, 0), (falseLabel, 0)] := by
  simp [boolInit, jsSet, hne]

/-- C6: when the field is absent (undefined or null) in every record, the
boolean distribution consists of exactly the two configured labels each
with count 0 and percentage 0, and the total is 0; the computation is a
total function, so no division or exception occurs. -/
theorem boolean_distribution_all_absent :
    ∀ (data : List JSVal) (field trueLabel falseLabel : String),
      trueLabel ≠ falseLabel →
      (∀ r ∈ data, isAbsent (getNestedValue r field) = true) →
      (calculateBooleanDistribution data field trueLabel falseLabel).Perm
          [DistEntry.mk trueLabel 0 0, DistEntry.mk falseLabel 0 0]
      ∧ (boolPass data field trueLabel falseLabel).2 = 0 := by
  intro data field trueLabel falseLabel hne habs
  have hpass : boolPass data field trueLabel falseLabel
      = (boolInit trueLabel falseLabel, 0) :=
    foldl_boolStep_absent field trueLabel falseLabel data _ habs
  constructor
  · unfold calculateBooleanDistribution
    rw [hpass, boolInit_of_ne hne]
    refine (sortByPercentageDesc_perm _).trans ?_
    unfold rankedEntries
    refine ((jsEntries_perm _).map (rankedEntry 0)).trans ?_
    have hmap : ([(trueLabel, (0 : Nat)), (falseLabel, 0)]).map (rankedEntry 0)
        = [DistEntry.mk trueLabel 0 0, DistEntry.mk falseLabel 0 0] := by
      simp [rankedEntry]
    rw [hmap]
  · rw [hpass]

/-- Witness for C6: a concrete record set with the probed field absent in
every record, with distinct labels. -/
theorem boolean_distribution_all_absent_witness :
    (calculateBooleanDistribution c6Rows "missing" "Yes" "No").Perm
        [DistEntry.mk "Yes" 0 0, DistEntry.mk "No" 0 0]
    ∧ (boolPass c6Rows "missing" "Yes" "No").2 = 0 :=
  boolean_distribution_all_absent c6Rows "missing" "Yes" "No"
    (by decide) (by decide)

theorem growthCountsFor_spec (field : String) :
    ∀ (data : List CsvRow) (c0 : GrowthCounts),
      (data.foldl (fun c row => growthBump c (rowGet row field)) c0).cNone
          = c0.cNone + countExactMatches data field "None"
      ∧ (data.foldl (fun c row => growthBump c (rowGet row field)) c0).cLittle
          = c0.cLittle + countExactMatches data field "Little"
      ∧ (data.foldl (fun c row => growthBump c (rowGet row field)) c0).cModerate
          = c0.cModerate + countExactMatches data field "Moderate"
      ∧ (data.foldl (fun c row => growthBump c (rowGet row field)) c0).cALot
          = c0.cALot + countExactMatches data field "A lot" := by
  intro data
  induction data with
  | nil =>
    intro c0
    simp [countExactMatches]
  | cons row rest ih =>
    intro c0
    have h := ih (growthBump c0 (rowGet row field))
    rw [List.foldl_cons]
    cases hv : rowGet row field with
    | none =>
      simp only [countExactMatches, List.filter_cons, hv] at h ⊢
      simpa [growthBump, hv] using h
    | some s =>
      by_cases h0 : s = ""
      · subst h0
        simp only [countExactMatches, List.filter_cons, hv] at h ⊢
        simpa [growthBump, hv] using h
      · by_cases h1 : s = "None"
        · subst h1
          simp only [countExactMatches, List.filter_cons, hv] at h ⊢
          rcases h with ⟨ha, hb, hc, hd⟩
          refine ⟨?_, ?_, ?_, ?_⟩ <;>
            simp [growthBump, hv, countExactMatches] at ha hb hc hd ⊢ <;> omega
        · by_cases h2 : s = "Little"
          · subst h2
            simp only [countExactMatches, List.filter_cons, hv] at h ⊢
            rcases h with ⟨ha, hb, hc, hd⟩
            refine ⟨?_, ?_, ?_, ?_⟩ <;>
              simp [growthBump, hv, countExactMatches] at ha hb hc hd ⊢ <;> omega
          · by_cases h3 : s = "Moderate"
            · subst h3
              simp only [countExactMatches, List.filter_cons, hv] at h ⊢
              rcases h with ⟨ha, hb, hc, hd⟩
              refine ⟨?_, ?_, ?_, ?_⟩ <;>
                simp [growthBump, hv, countExactMatches] at ha hb hc hd ⊢ <;> omega
            · by_cases h4 : s = "A lot"
              · subst h4
                simp only [countExactMatches, List.filter_cons, hv] at h ⊢
                rcases h with ⟨ha, hb, hc, hd⟩
                refine ⟨?_, ?_, ?_, ?_⟩ <;>
                  simp [growthBump, hv, countExactMatches] at ha hb hc hd ⊢ <;> omega
              · simp only [countExactMatches, List.filter_cons, hv] at h ⊢
                rcases h with ⟨ha, hb, hc, hd⟩
                refine ⟨?_, ?_, ?_, ?_⟩ <;>
                  simp [growthBump, hv, h0, h1, h2, h3, h4, countExactMatches] at ha hb hc hd ⊢ <;>
                    omega

theorem catCount_growthCountsFor (data : List CsvRow) (field : String) :
    ∀ cat ∈ growthCategories,
      catCount (growthCountsFor data field) cat = countExactMatches data field cat := by
  intro cat hcat
  have h := growthCountsFor_spec field data ⟨0, 0, 0, 0⟩
  rcases h with ⟨ha, hb, hc, hd⟩
  fin_cases hcat
  · simpa [growthCountsFor, catCount] using ha
  · simpa [growthCountsFor, catCount] using hb
  · simpa [growthCountsFor, catCount] using hc
  · simpa [growthCountsFor, catCount] using hd

/-- C3: the Growth Comparator counts a record toward a category exactly
when its raw field value equals one of the four labels (out-of-domain
values are ignored), computes each percentage as the rounding of 100 times
the category count over the raw record count of that set (1 substituted for
an empty set), returns one row per category in fixed order, and yields the
specified result on the concrete two-goal, one-outcome example. -/
theorem growth_comparator_correct :
    (∀ (goalData exitData : List CsvRow) (expectedField achievedField : String),
      calculateGrowthData goalData exitData expectedField achievedField
        = growthCategories.map (fun cat =>
            { category := cat
              expected := roundPct (countExactMatches goalData expectedField cat)
                (orOne goalData.length)
              achieved := roundPct (countExactMatches exitData achievedField cat)
                (orOne exitData.length) }))
    ∧ calculateGrowthData [[("Expected", "None")], [("Expected", "A lot")]]
        [[("Achieved", "A lot")]] "Expected" "Achieved"
        = [GrowthRow.mk "None" 50 0, GrowthRow.mk "Little" 0 0,
           GrowthRow.mk "Moderate" 0 0, GrowthRow.mk "A lot" 50 100] := by
  constructor
  · intro goalData exitData expectedField achievedField
    unfold calculateGrowthData
    refine List.map_congr_left ?_
    intro cat hcat
    rw [catCount_growthCountsFor goalData expectedField cat hcat,
      catCount_growthCountsFor exitData achievedField cat hcat]
  · decide

theorem batteryFrom_length (data : List CsvRow) (affirm : List String) :
    ∀ (fields : List String) (start : Nat),
      (batteryFrom data affirm start fields).length = fields.length := by
  intro fields
  induction fields with
  | nil => intro start; rfl
  | cons f rest ih => intro start; simp [batteryFrom, ih]

theorem batteryFrom_get? (data : List CsvRow) (affirm : List String) :
    ∀ (fields : List String) (start i : Nat),
      (batteryFrom data affirm start fields).get? i
        = (fields.get? i).map (fun field =>
            { category := letterLabel (start + i)
              percentage := if data.length > 0
                then roundPct ((data.filter
                  (fun row => affirmMatch affirm (rowGet row field))).length) data.length
                else 0 }) := by
  intro fields
  induction fields with
  | nil => intro start i; simp [batteryFrom]
  | cons f rest ih =>
    intro start i
    cases i with
    | zero => simp [batteryFrom]
    | succ n =>
      have harith : start + (n + 1) = (start + 1) + n := by omega
      simp only [batteryFrom, List.get?_cons_succ, ih (start + 1) n, harith]

theorem batteryFrom_empty_zero (affirm : List String) :
    ∀ (fields : List String) (start : Nat),
      ((batteryFrom [] affirm start fields).all
        (fun s => s.percentage == 0)) = true := by
  intro fields
  induction fields with
  | nil => intro start; rfl
  | cons f rest ih => intro start; simp [batteryFrom, ih]

/-- C7: each battery score is the rounding of 100 times the number of
records whose field value lies in the affirmative set over the total record
count, 0 for an empty record set; the letter label at position i is the
i-th letter from A, and the output order follows the configured field order
with no re-sorting; the two concrete batteries are instances of this
scorer. -/
theorem likelihood_scorer_positional :
    ∀ (data : List CsvRow) (fields affirm : List String) (i : Nat),
      (scoreBattery data fields affirm).length = fields.length
      ∧ (scoreBattery data fields affirm).get? i
          = (fields.get? i).map (fun field =>
              { category := letterLabel i
                percentage := if data.length > 0
                  then roundPct ((data.filter
                    (fun row => affirmMatch affirm (rowGet row field))).length) data.length
                  else 0 })
      ∧ ((scoreBattery [] fields affirm).all (fun s => s.percentage == 0)) = true
      ∧ netPromoterScores data = scoreBattery data npsFields ["Likely", "Extremely likely"]
      ∧ activitiesScores data = scoreBattery data activityFields ["Yes"] := by
  intro data fields affirm i
  refine ⟨batteryFrom_length data affirm fields 0, ?_,
    batteryFrom_empty_zero affirm fields 0, rfl, rfl⟩
  have h := batteryFrom_get? data affirm fields 0 i
  simpa [scoreBattery] using h

theorem gradClassify_inv (st : GradCounts × Nat) (entry : JSVal)
    (h : st.2 = st.1.masters + st.1.phd + st.1.mddo + st.1.other) :
    (gradClassify st entry).2 = (gradClassify st entry).1.masters
      + (gradClassify st entry).1.phd + (gradClassify st entry).1.mddo
      + (gradClassify st entry).1.other := by
  unfold gradClassify
  dsimp only
  split_ifs <;> (try dsimp only) <;> omega

theorem gradPass_total (entries : List JSVal) :
    (gradPass entries).2 = (gradPass entries).1.masters
      + (gradPass entries).1.phd + (gradPass entries).1.mddo
      + (gradPass entries).1.other := by
  unfold gradPass
  have aux : ∀ (l : List JSVal) (st : GradCounts × Nat),
      st.2 = st.1.masters + st.1.phd + st.1.mddo + st.1.other →
      (l.foldl gradClassify st).2 = (l.foldl gradClassify st).1.masters
        + (l.foldl gradClassify st).1.phd + (l.foldl gradClassify st).1.mddo
        + (l.foldl gradClassify st).1.other := by
    intro l
    induction l with
    | nil => intro st h; exact h
    | cons entry rest ih =>
      intro st h
      rw [List.foldl_cons]
      exact ih _ (gradClassify_inv st entry h)
  exact aux entries (⟨0, 0, 0, 0⟩, 0) rfl

/-- C9: when at least one record was counted, the graduate-school-interest
distribution contains exactly the categories with a positive count (the
zero-count ones are dropped); when no record was counted it contains all
four fixed categories, each with count 0 and percentage 0. -/
theorem graduate_school_filter_behavior :
    ∀ (entries : List JSVal),
      ((gradPass entries).2 = 0 →
        graduateSchoolInterest entries
          = [DistEntry.mk "Masters" 0 0, DistEntry.mk "PhD" 0 0,
             DistEntry.mk "MD/DO" 0 0, DistEntry.mk "Other" 0 0])
      ∧ (0 < (gradPass entries).2 →
          ∀ e, e ∈ graduateSchoolInterest entries
            ↔ (e ∈ gradBaseEntries entries ∧ 0 < e.count)) := by
  intro entries
  constructor
  · intro h0
    have htot := gradPass_total entries
    rcases hgp : gradPass entries with ⟨⟨m, p, d, o⟩, t⟩
    rw [hgp] at h0 htot
    dsimp only at h0 htot
    have hm : m = 0 := by omega
    have hp : p = 0 := by omega
    have hd : d = 0 := by omega
    have ho : o = 0 := by omega
    subst hm hp hd ho
    subst h0
    unfold graduateSchoolInterest gradBaseEntries
    rw [hgp]
    decide
  · intro ht e
    constructor
    · intro he
      have hm := (sortByPercentageDesc_perm _).mem_iff.mp he
      have hf := List.mem_filter.mp hm
      refine ⟨hf.1, ?_⟩
      have hcond := hf.2
      simp only [Bool.or_eq_true, bne_iff_ne, beq_iff_eq] at hcond
      rcases hcond with hc | hc
      · omega
      · omega
    · rintro ⟨hbase, hcount⟩
      refine (sortByPercentageDesc_perm _).mem_iff.mpr ?_
      refine List.mem_filter.mpr ⟨hbase, ?_⟩
      simp only [Bool.or_eq_true, bne_iff_ne, beq_iff_eq]
      left
      omega

/-- Witness for C9: no counted record yields all four zero categories; one
counted masters record yields a distribution containing the Masters entry
at 100 percent. -/
theorem graduate_school_filter_witness :
    graduateSchoolInterest []
        = [DistEntry.mk "Masters" 0 0, DistEntry.mk "PhD" 0 0,
           DistEntry.mk "MD/DO" 0 0, DistEntry.mk "Other" 0 0]
    ∧ DistEntry.mk "Masters" 1 100 ∈ graduateSchoolInterest c9Rows :=
  ⟨(graduate_school_filter_behavior []).1 rfl,
   ((graduate_school_filter_behavior c9Rows).2 (by decide)
     (DistEntry.mk "Masters" 1 100)).mpr ⟨by decide, by decide⟩⟩

/-- C1 counterexample: with both identifying filters present and the
discriminator value banana, which is neither profile nor growth, the
assembler produces a bundle and signals no failure — an unknown
discriminator is not a failure condition in the code. -/
theorem assembler_unknown_kind_counterexample :
    unknownKindInput.reportType = JSVal.str "banana"
    ∧ ("banana" != "profile") = true
    ∧ ("banana" != "growth") = true
    ∧ idString unknownKindInput.sessionId = "s1"
    ∧ idString unknownKindInput.experienceId = "e1"
    ∧ (generateReportData unknownKindInput).isOk = true := by
  refine ⟨rfl, by decide, by decide, by decide, by decide, ?_⟩
  rfl

/-- C1 amended: the Report Data Assembler signals a distinct failure
exactly when an identifying filter is absent (session checked first, then
experience); the report-kind discriminator never triggers a failure, since
every value other than the literal string profile selects the growth
branch. -/
theorem assembler_failure_iff :
    ∀ (inp : GenInput),
      ((generateReportData inp).isOk = true
          ↔ (idString inp.sessionId ≠ "" ∧ idString inp.experienceId ≠ ""))
      ∧ (generateReportData inp = .error .sessionRequired
          ↔ idString inp.sessionId = "")
      ∧ (generateReportData inp = .error .experienceRequired
          ↔ (idString inp.sessionId ≠ "" ∧ idString inp.experienceId = ""))
      ∧ (idString inp.sessionId ≠ "" → idString inp.experienceId ≠ "" →
          ∃ b, generateReportData inp = .ok b) := by
  intro inp
  unfold generateReportData
  by_cases h1 : idString inp.sessionId = ""
  · simp [h1, Except.isOk, Except.toBool]
  · by_cases h2 : idString inp.experienceId = ""
    · simp [h1, h2, Except.isOk, Except.toBool]
    · by_cases h3 : isProfileType inp.reportType = true
      · simp [h1, h2, h3, Except.isOk, Except.toBool]
      · simp [h1, h2, h3, Except.isOk, Except.toBool]

/-- Witness for C1: the failure characterization instantiated on a
concrete request whose filters are present, discharging the hypotheses of
the bundle-production component. -/
theorem assembler_failure_iff_witness :
    ((generateReportData unknownKindInput).isOk = true
      ↔ (idString unknownKindInput.sessionId ≠ ""
          ∧ idString unknownKindInput.experienceId ≠ ""))
    ∧ ∃ b, generateReportData unknownKindInput = .ok b :=
  ⟨(assembler_failure_iff unknownKindInput).1,
   (assembler_failure_iff unknownKindInput).2.2.2 (by decide) (by decide)⟩

/-- C8: two invocations of the Report Data Assembler on identical record
sets and request parameters, differing only in the clock, produce bundles
that agree everywhere except the generated-date field. -/
theorem assembler_reproducible :
    ∀ (inp : GenInput) (t₁ t₂ : String),
      Except.map eraseGeneratedDate (generateReportData { inp with now := t₁ })
        = Except.map eraseGeneratedDate (generateReportData { inp with now := t₂ }) := by
  intro inp t₁ t₂
  unfold generateReportData
  by_cases h1 : idString inp.sessionId = ""
  · simp [h1]
  · by_cases h2 : idString inp.experienceId = ""
    · simp [h1, h2]
    · by_cases h3 : isProfileType inp.reportType = true
      · simp only [h1, h2, h3]
        simp [Except.map, eraseGeneratedDate, mkProfileData]
      · simp only [h1, h2, h3]
        simp [Except.map, eraseGeneratedDate, mkGrowthData]
